import Mathlib

/-!
Shallow embedding of the WebGPU resource-memoization plugin
(`webGPUPluginCreator` and its helpers): descriptor fingerprinting
(`localResourceHash`, `globalResourceHash`), the per-device global caches
with device-loss eviction, the per-context local caches, `dispose`,
dependency comparison (`isSameDependencies`), the `pushFrame` registry
branch, and the `action` queue branch.

JavaScript `Map`s are embedded as association lists with `Map.get`,
`Map.set` (overwrite-or-append, preserving insertion order) and
`Map.delete`.  A resource produced by `hashed(device.createX(...))` is
embedded as a record carrying its fresh `instanceId`, allocated from a
monotone counter (the spec describes `hashed` as attaching a stable
identity token to each created resource).
-/

set_option autoImplicit false

/-- JS `Map.get` on an association list. -/
def mapGet {K V : Type} [DecidableEq K] : List (K × V) → K → Option V
  | [], _ => none
  | (k', v) :: rest, k => if k = k' then some v else mapGet rest k

/-- JS `Map.set`: overwrite the existing binding in place, else append. -/
def mapSet {K V : Type} [DecidableEq K] : List (K × V) → K → V → List (K × V)
  | [], k, v => [(k, v)]
  | (k', v') :: rest, k, v =>
      if k = k' then (k, v) :: rest else (k', v') :: mapSet rest k v

/-- JS `Map.delete`. -/
def mapDelete {K V : Type} [DecidableEq K] : List (K × V) → K → List (K × V)
  | [], _ => []
  | (k', v') :: rest, k =>
      if k = k' then rest else (k', v') :: mapDelete rest k

/-- A field value inside a GPU resource descriptor.  A `handle` is a
previously created tracked resource embedded in the descriptor: it carries
its stable `instanceId` plus its other internal state (`payload`). -/
inductive FieldVal where
  | num (n : Nat)
  | str (s : String)
  | handle (instanceId : Nat) (payload : Nat)
deriving DecidableEq

/-- A resource descriptor: a JS object, embedded as its ordered fields. -/
abbrev Desc := List (String × FieldVal)

/-- What the `object-hash` replacer feeds the digest for one value: a
tracked resource handle is swapped for its `instanceId` token, every other
value is hashed structurally. -/
inductive HashedVal where
  | num (n : Nat)
  | str (s : String)
  | token (instanceId : Nat)
deriving DecidableEq

/-- The digest is embedded as the canonical replaced form of the
descriptor (`object-hash` is treated as injective on these forms). -/
abbrev Fingerprint := List (String × HashedVal)

/-- The `replacer` option passed to `hash`: a value carrying an
`instanceId` is replaced by that id before hashing. -/
def replaceHandle : FieldVal → HashedVal
  | .num n => .num n
  | .str s => .str s
  | .handle i _ => .token i

/-- `hash(desc, { replacer })` from `object-hash`. -/
def hashFields (d : Desc) : Fingerprint :=
  d.map fun p => (p.1, replaceHandle p.2)

/-- `globalResourceHash(desc)`: hash the descriptor with the
handle-replacing replacer; no owner identity is folded in. -/
def globalResourceHash (d : Desc) : Fingerprint := hashFields d

/-- `Object.assign(target, { field: v })`: sets the property on the
TARGET object itself — overwriting in place when present (field order
kept), appending otherwise — and returns that same mutated object. -/
def objectAssign (d : Desc) (field : String) (v : FieldVal) : Desc :=
  if (mapGet d field).isSome then
    d.map fun p => if p.1 = field then (p.1, v) else p
  else d ++ [(field, v)]

/-- `localResourceHash(desc, owner)`: hashes
`Object.assign(desc, { owningDevice: owner.instanceId })` with the
handle-replacing replacer.  Because `Object.assign` mutates its first
argument, the caller's descriptor object gains the `owningDevice`
property; the second component of the result is the descriptor object as
it stands after the call. -/
def localResourceHash (d : Desc) (ownerId : Nat) : Fingerprint × Desc :=
  let mutated := objectAssign d "owningDevice" (.num ownerId)
  (hashFields mutated, mutated)

/-- The element loop of `isSameDependencies`: runs over `prev.length`
indices, breaking at the first mismatch.  It is only reached when the two
lengths are equal, so both lists exhaust together. -/
def sameElems : List Nat → List Nat → Bool
  | p :: ps, q :: qs => p == q && sameElems ps qs
  | _, _ => true

/-- `isSameDependencies(prev, next)`.  Mirrors the source's control flow:
both `undefined` returns `true`; `prev === undefined` alone sets
`valid = false`; when both are arrays, an identity hit or equal lengths
with pairwise `===` elements give `true` (the `next === prev` identity
shortcut is subsumed by structural equality in this value embedding);
when `next` is `undefined` but `prev` is defined, NO branch ever sets
`valid` to `false`, so the function returns `true`. -/
def isSameDependencies (prev next : Option (List Nat)) : Bool :=
  match prev, next with
  | none, none => true
  | none, some _ => false
  | some _, none => true
  | some p, some n => if p.length ≠ n.length then false else sameElems p n

/-- The sameness relation as the specification's sentence describes it
(refinement reference following the spec's words, not the source): two
sequences are "same" iff they are the identical sequence (value equality
in this embedding, which also covers both-undefined), or both are defined
with equal length and pairwise identical elements, in order. -/
def specSameDependencies (prev next : Option (List Nat)) : Bool :=
  (prev == next) ||
    match prev, next with
    | some p, some n =>
        (p.length == n.length) && (List.zip p n).all fun q => q.1 == q.2
    | _, _ => false

/-- A created resource after `hashed(...)`: carries its fresh, stable
`instanceId`. -/
structure Res where
  instanceId : Nat
deriving DecidableEq

deriving instance DecidableEq for Except

/-- One per-device cache: fingerprint → resource, a JS `Map`. -/
abbrev Cache := List (Fingerprint × Res)

/-- The six device-global resource kinds; the `exec` branches for them are
textually identical apart from which module-level cache map they use. -/
inductive GKind where
  | shader | sampler | renderPipeline | computePipeline
  | bindGroupLayout | pipelineLayout
deriving DecidableEq, Fintype

/-- The module-global state around the six `*_CACHE` maps.  `registry`
gathers them into one map keyed by (device `instanceId`, kind); `subs`
records the pending `device.lost.then(...)` subscriptions (one is
registered each time a cache is created for a (device, kind) pair);
`clearedLog` records the entry counts reported by the lost handlers;
`nextId` is the fresh-identity counter behind `hashed`; `createCalls`
counts invocations of the device's `create*` functions. -/
structure GWorld where
  registry : List ((Nat × GKind) × Cache)
  subs : List (Nat × GKind)
  clearedLog : List Nat
  nextId : Nat
  createCalls : Nat
deriving DecidableEq

def GWorld.empty : GWorld := ⟨[], [], [], 0, 0⟩

/-- The entries currently cached for a (device, kind) pair: the contents
of that cache, or nothing when no cache exists. -/
def cacheEntries (w : GWorld) (dev : Nat) (k : GKind) : Cache :=
  (mapGet w.registry (dev, k)).getD []

/-- One `exec` global-resource branch (e.g. `createShaderModule`): fetch
the device's cache, creating it — and subscribing to `device.lost` — when
absent; hash the descriptor with `globalResourceHash`; on a cache hit
return the cached resource unchanged; on a miss invoke the device's
creation function (`devFails` says whether the device rejects this call —
a thrown error propagates before `cache.set` runs), wrap it with a fresh
`instanceId`, store it under the fingerprint and return it. -/
def execGlobal (w : GWorld) (dev : Nat) (k : GKind) (desc : Desc)
    (devFails : Bool) : Except Unit Res × GWorld :=
  let found := mapGet w.registry (dev, k)
  let cache := found.getD []
  let w1 :=
    match found with
    | some _ => w
    | none =>
        { w with registry := mapSet w.registry (dev, k) []
                 subs := (dev, k) :: w.subs }
  let resourceKey := globalResourceHash desc
  match mapGet cache resourceKey with
  | some fromCache => (.ok fromCache, w1)
  | none =>
      if devFails then
        (.error (), { w1 with createCalls := w1.createCalls + 1 })
      else
        let resource : Res := ⟨w1.nextId⟩
        (.ok resource,
          { w1 with
              registry := mapSet w1.registry (dev, k)
                (mapSet cache resourceKey resource)
              nextId := w1.nextId + 1
              createCalls := w1.createCalls + 1 })

/-- Run the pending lost handlers of device `dev`, in registration order.
Each handler deletes its (device, kind) cache from the module-level
registry, reads the cache's size and clears it (embedded as the registry
deletion), and logs the count cleared. -/
def runLostHandlers (subs : List (Nat × GKind)) (dev : Nat) (w : GWorld) :
    GWorld :=
  match subs with
  | [] => w
  | s :: rest =>
      if s.1 = dev then
        let size := ((mapGet w.registry s).getD []).length
        runLostHandlers rest dev
          { w with registry := mapDelete w.registry s
                   clearedLog := w.clearedLog ++ [size] }
      else runLostHandlers rest dev w

/-- The device's one-shot `lost` signal fires: every subscription
registered for that device runs once and is consumed. -/
def fireLost (w : GWorld) (dev : Nat) : GWorld :=
  runLostHandlers w.subs dev
    { w with subs := w.subs.filter fun s => decide (s.1 ≠ dev) }

/-- The three context-local resource kinds. -/
inductive LKind where
  | buffer | texture | bindGroup
deriving DecidableEq

/-- The `WebGPUFrameContext` fields this layer touches.  The source
initializes each lazily on first `exec`; an absent map and an empty map
behave identically, so they are embedded as always-present lists.
(`ctx.calls` is initialized by `exec` but never read or written by any
branch shown, so it is omitted.) -/
structure Ctx where
  buffers : List (Fingerprint × Res)
  textures : List (Fingerprint × Res)
  bindGroups : List (Fingerprint × Res)
  frameDeps : List (String × List Nat)
  queueEffectsDeps : List (String × List Nat)
deriving DecidableEq

def Ctx.empty : Ctx := ⟨[], [], [], [], []⟩

def Ctx.cacheOf (c : Ctx) : LKind → List (Fingerprint × Res)
  | .buffer => c.buffers
  | .texture => c.textures
  | .bindGroup => c.bindGroups

def Ctx.setCache (c : Ctx) : LKind → List (Fingerprint × Res) → Ctx
  | .buffer, m => { c with buffers := m }
  | .texture, m => { c with textures := m }
  | .bindGroup, m => { c with bindGroups := m }

/-- One `exec` local-resource branch (`createBuffer` / `createTexture` /
`createBindGroup`): key by `localResourceHash(desc, device)`, look up in
the context's cache for that kind; on a hit return the existing resource;
on a miss create against the device (fresh `instanceId` from `nextId`),
store in the context's cache and return it.  Result:
(resource, context after, next fresh id, whether a creation happened). -/
def execLocal (ctx : Ctx) (devId : Nat) (k : LKind) (desc : Desc)
    (nextId : Nat) : Res × Ctx × Nat × Bool :=
  let key := (localResourceHash desc devId).1
  match mapGet (ctx.cacheOf k) key with
  | some existing => (existing, ctx, nextId, false)
  | none =>
      let resource : Res := ⟨nextId⟩
      (resource, ctx.setCache k (mapSet (ctx.cacheOf k) key resource),
        nextId + 1, true)

/-- `dispose(ctx)`: calls `destroy()` on every locally cached texture,
then on every locally cached buffer, in map iteration order.  The source
contains no statement clearing or deleting the context's maps, so the
context is returned as it was; the first component lists the resources on
which `destroy` was invoked, in call order. -/
def disposeCtx (ctx : Ctx) : List Res × Ctx :=
  ((ctx.textures.map Prod.snd) ++ (ctx.buffers.map Prod.snd), ctx)

/-- A whole-system state: the module-global caches plus every live
execution context.  `dispose` receives one context and touches nothing
else. -/
structure World where
  globalState : GWorld
  contexts : List Ctx

/-- `dispose` lifted to the whole system: destroys the resources of
context `i` (when it exists) and leaves every piece of state — sibling
contexts and the global caches included — exactly as it was. -/
def disposeWorld (w : World) (i : Nat) : List Res × World :=
  ((match w.contexts.get? i with
    | some c => (disposeCtx c).1
    | none => []), w)

inductive FrameKind where
  | once | loop
deriving DecidableEq

/-- A `FrameCallback` entry as stored in the renderer context.  The
callback function itself is embedded by an opaque identity. -/
structure FrameCallback where
  valid : Bool
  callback : Nat
  enabled : Bool
  kind : FrameKind
deriving DecidableEq

/-- The `rendererContext` map: call-site key → frame callback entry. -/
abbrev Renderer := List (String × FrameCallback)

/-- The `pushFrame` branch of `exec`.  With a dependency array
(`Array.isArray(deps)`): `isFirstRender` is the truthiness test
`!ctx.frameDeps[key]` (an array, even an empty one, is truthy);
`areSame = isSameDependencies(deps, lastDeps)` — note the NEW deps are the
first argument; `enabled = !areSame || isFirstRender`; the entry has kind
`"once"`; the new deps are written to `ctx.frameDeps[key]`
unconditionally, and the entry is stored in the renderer map.  Without a
dependency array the entry has kind `"loop"`, `enabled = true`, and no
dependency bookkeeping happens. -/
def execPushFrame (ctx : Ctx) (renderer : Renderer) (key : String)
    (cb : Nat) (deps : Option (List Nat)) : FrameCallback × Ctx × Renderer :=
  match deps with
  | some d =>
      let isFirstRender := (mapGet ctx.frameDeps key).isNone
      let lastDeps := mapGet ctx.frameDeps key
      let areSame := isSameDependencies (some d) lastDeps
      let enabled := !areSame || isFirstRender
      let frame : FrameCallback := ⟨true, cb, enabled, .once⟩
      (frame, { ctx with frameDeps := mapSet ctx.frameDeps key d },
        mapSet renderer key frame)
  | none =>
      let frame : FrameCallback := ⟨true, cb, true, .loop⟩
      (frame, ctx, mapSet renderer key frame)

/-- The settlement state of the future (`token`) handed out by the
`action` branch. -/
inductive Future where
  | unsettled
  | resolved (v : Nat)
  | rejected (e : Nat)
deriving DecidableEq

/-- `promise.resolve`: settles an unsettled promise; a later call on an
already settled promise is a no-op (JS promise semantics). -/
def resolveF : Future → Nat → Future
  | .unsettled, v => .resolved v
  | f, _ => f

/-- `promise.reject`: same first-settlement-wins semantics. -/
def rejectF : Future → Nat → Future
  | .unsettled, e => .rejected e
  | f, _ => f

/-- The per-action state produced by the `action` branch of `exec`:
the future handed to the caller, whether the thunk is still registered in
`actionContext` awaiting the frame driver, and how many times the
caller's `action` function has been run. -/
structure ActionEntry where
  fut : Future
  registered : Bool
  runs : Nat
deriving DecidableEq

/-- The `action` branch (the thunk `exec` returns, run to enqueue): a
future is created unsettled, a thunk closing over the action and the
future's `resolve`/`reject` is added to `actionContext`, and the future is
returned to the caller.  The action itself has not run. -/
def enqueueAction : ActionEntry :=
  { fut := .unsettled, registered := true, runs := 0 }

/-- The frame driver's action-processing phase consumes the registered
thunk once and runs `call.action(bag).then(promise.resolve)
.catch(promise.reject)`: the action runs once; if its promise fulfils
with `v` the `then` handler resolves the future with `v`, if it rejects
with `e` the `catch` handler rejects the future with `e` — exactly one of
the two handlers fires per settlement of the action's promise. -/
def processAction (a : ActionEntry) (outcome : Except Nat Nat) : ActionEntry :=
  { fut :=
      match outcome with
      | .ok v => resolveF a.fut v
      | .error e => rejectF a.fut e
    registered := false
    runs := a.runs + 1 }

theorem mapGet_mapSet_self {K V : Type} [DecidableEq K]
    (m : List (K × V)) (k : K) (v : V) : mapGet (mapSet m k v) k = some v := by
  induction m with
  | nil => simp [mapSet, mapGet]
  | cons p rest ih =>
      by_cases h : k = p.1
      · simp [mapSet, mapGet, h]
      · simp [mapSet, mapGet, h, ih]

theorem mapGet_mapSet_ne {K V : Type} [DecidableEq K]
    (m : List (K × V)) (k k' : K) (v : V) (h : k ≠ k') :
    mapGet (mapSet m k' v) k = mapGet m k := by
  induction m with
  | nil => simp [mapSet, mapGet, h]
  | cons p rest ih =>
      by_cases hk : k' = p.1
      · subst hk; simp [mapSet, mapGet, h]
      · by_cases hk2 : k = p.1
        · simp [mapSet, mapGet, hk, hk2]
        · simp [mapSet, mapGet, hk, hk2, ih]

theorem mapGet_eq_none_of_not_mem_keys {K V : Type} [DecidableEq K]
    (m : List (K × V)) (k : K) (h : k ∉ m.map Prod.fst) :
    mapGet m k = none := by
  induction m with
  | nil => simp [mapGet]
  | cons p rest ih =>
      simp only [List.map_cons, List.mem_cons, not_or] at h
      simp [mapGet, h.1, ih h.2]

theorem mapGet_mapDelete_self {K V : Type} [DecidableEq K]
    (m : List (K × V)) (k : K) (hm : (m.map Prod.fst).Nodup) :
    mapGet (mapDelete m k) k = none := by
  induction m with
  | nil => simp [mapDelete, mapGet]
  | cons p rest ih =>
      simp only [List.map_cons, List.nodup_cons] at hm
      by_cases hk : k = p.1
      · subst hk
        simp only [mapDelete, if_pos rfl]
        exact mapGet_eq_none_of_not_mem_keys rest p.1 hm.1
      · simp [mapDelete, mapGet, hk, ih hm.2]

theorem mapGet_mapDelete_ne {K V : Type} [DecidableEq K]
    (m : List (K × V)) (k k' : K) (h : k ≠ k') :
    mapGet (mapDelete m k') k = mapGet m k := by
  induction m with
  | nil => simp [mapDelete]
  | cons p rest ih =>
      by_cases hk : k' = p.1
      · subst hk
        simp [mapDelete, mapGet, h]
      · by_cases hk2 : k = p.1
        · simp [mapDelete, mapGet, hk, hk2]
        · simp [mapDelete, mapGet, hk, hk2, ih]

theorem isSameDependencies_some_some_iff (p n : List Nat) :
    isSameDependencies (some p) (some n) = true ↔ p = n := by
  induction p generalizing n with
  | nil => cases n <;> simp [isSameDependencies, sameElems]
  | cons a as ih =>
      cases n with
      | nil => simp [isSameDependencies]
      | cons b bs =>
          have h2 := ih bs
          simp only [isSameDependencies] at h2 ⊢
          by_cases hl : as.length = bs.length
          · rw [if_neg (by omega : ¬(as.length ≠ bs.length))] at h2
            rw [List.length_cons, List.length_cons,
              if_neg (by omega : ¬(as.length + 1 ≠ bs.length + 1))]
            simp [sameElems, h2, List.cons.injEq]
          · rw [List.length_cons, List.length_cons,
              if_pos (by omega : as.length + 1 ≠ bs.length + 1)]
            constructor
            · simp
            · intro h
              injection h with h1 hrest
              exact absurd (by rw [hrest]) hl

theorem mapGet_mem_values {K V : Type} [DecidableEq K]
    (m : List (K × V)) (k : K) (v : V) (h : mapGet m k = some v) :
    v ∈ m.map Prod.snd := by
  induction m with
  | nil => simp [mapGet] at h
  | cons p rest ih =>
      by_cases hk : k = p.1
      · simp [mapGet, hk] at h
        simp [← h]
      · simp [mapGet, hk] at h
        simp [ih h]

theorem cacheOf_setCache (c : Ctx) (k : LKind) (m : List (Fingerprint × Res)) :
    (c.setCache k m).cacheOf k = m := by
  cases k <;> rfl

theorem mapGet_append_right {K V : Type} [DecidableEq K]
    (m m' : List (K × V)) (k : K) (h : mapGet m k = none) :
    mapGet (m ++ m') k = mapGet m' k := by
  induction m with
  | nil => simp [mapGet]
  | cons p rest ih =>
      by_cases hk : k = p.1
      · simp [mapGet, hk] at h
      · simp only [mapGet, hk, if_neg hk] at h ⊢
        exact ih h

theorem mapGet_overwrite_self {K V : Type} [DecidableEq K]
    (m : List (K × V)) (k : K) (v : V) (h : (mapGet m k).isSome) :
    mapGet (m.map fun p => if p.1 = k then (p.1, v) else p) k = some v := by
  induction m with
  | nil => simp [mapGet] at h
  | cons p rest ih =>
      obtain ⟨pk, pv⟩ := p
      by_cases hk : pk = k
      · subst hk
        simp only [List.map_cons, if_true]
        simp [mapGet]
      · have hk2 : ¬ k = pk := fun hEq => hk hEq.symm
        simp only [mapGet, if_neg hk2] at h
        simp only [List.map_cons]
        rw [if_neg hk]
        simp only [mapGet, if_neg hk2]
        exact ih h

/-- `Object.assign(desc, { field: v })` leaves the assigned property
readable as `v`. -/
theorem mapGet_objectAssign_self (d : Desc) (f : String) (v : FieldVal) :
    mapGet (objectAssign d f v) f = some v := by
  unfold objectAssign
  by_cases h : (mapGet d f).isSome
  · rw [if_pos h]
    exact mapGet_overwrite_self d f v h
  · rw [if_neg h]
    have hn : mapGet d f = none := by
      cases hd : mapGet d f
      · rfl
      · rw [hd] at h
        exact absurd rfl h
    rw [mapGet_append_right d [(f, v)] f hn]
    simp [mapGet]

/-- Hashing commutes with property lookup: the digest holds, at each
field, the replacer's image of the descriptor's value there. -/
theorem mapGet_hashFields (d : Desc) (f : String) :
    mapGet (hashFields d) f = (mapGet d f).map replaceHandle := by
  induction d with
  | nil => simp [hashFields, mapGet]
  | cons p rest ih =>
      by_cases hk : f = p.1
      · simp [hashFields, mapGet, hk]
      · simp only [hashFields, List.map_cons, mapGet, if_neg hk] at ih ⊢
        exact ih

/-- The local fingerprint carries the owning device's identity at the
`owningDevice` field. -/
theorem localResourceHash_owningDevice (d : Desc) (ownerId : Nat) :
    mapGet (localResourceHash d ownerId).1 "owningDevice"
      = some (HashedVal.num ownerId) := by
  show mapGet (hashFields (objectAssign d "owningDevice" (.num ownerId)))
      "owningDevice" = some (HashedVal.num ownerId)
  rw [mapGet_hashFields, mapGet_objectAssign_self]
  rfl

/-- C5: counterexample.  The registry's comparison judges a defined
`prev` sequence and an undefined `next` to be "same" (no branch of
`isSameDependencies` ever sets `valid` to `false` in that case), while
the claim's relation — identical, or both defined with equal length and
pairwise identical elements — judges them different. -/
theorem isSameDependencies_claim_cex :
    isSameDependencies (some [1]) none = true
    ∧ specSameDependencies (some [1]) none = false := by decide

/-- C5 (amended): the comparison judges two dependency sequences "same"
iff the second (`next`) sequence is undefined, or the two are equal —
i.e. identical, or both defined with equal length and pairwise identical
elements, in order. -/
theorem isSameDependencies_characterization (prev next : Option (List Nat)) :
    isSameDependencies prev next = true ↔ (next = none ∨ prev = next) := by
  cases prev with
  | none => cases next <;> simp [isSameDependencies]
  | some p =>
      cases next with
      | none => simp [isSameDependencies]
      | some n => rw [isSameDependencies_some_some_iff]; simp

/-- C7: computing the local fingerprint is NOT pure — at the descriptor
`{size: 256}` with owner `instanceId` 7, `localResourceHash` mutates the
caller's descriptor through `Object.assign(desc, { owningDevice: ... })`,
leaving an `owningDevice: 7` property on it, where the claim and the
spec's "Pure ... immutable value" contract require the descriptor to be
left unchanged. -/
theorem localResourceHash_mutates_descriptor :
    (localResourceHash [("size", FieldVal.num 256)] 7).2
      = [("size", FieldVal.num 256), ("owningDevice", FieldVal.num 7)]
    ∧ (localResourceHash [("size", FieldVal.num 256)] 7).2
      ≠ [("size", FieldVal.num 256)] := by decide

/-- C8: enqueuing an action creates an unsettled future and returns it
without running the action; when the frame driver's processing phase
invokes the registered thunk, a succeeding action resolves the future
with its result exactly once, a throwing/rejecting action rejects it
exactly once, the thunk is consumed, and a settlement attempt on an
already settled future never changes it (no second settlement). -/
theorem action_settlement :
    (enqueueAction.fut = Future.unsettled ∧ enqueueAction.runs = 0
      ∧ enqueueAction.registered = true)
    ∧ (∀ v : Nat, processAction enqueueAction (.ok v)
        = ⟨Future.resolved v, false, 1⟩)
    ∧ (∀ e : Nat, processAction enqueueAction (.error e)
        = ⟨Future.rejected e, false, 1⟩)
    ∧ (∀ v w : Nat, resolveF (Future.resolved v) w = Future.resolved v
        ∧ rejectF (Future.resolved v) w = Future.resolved v)
    ∧ (∀ e w : Nat, resolveF (Future.rejected e) w = Future.rejected e
        ∧ rejectF (Future.rejected e) w = Future.rejected e) :=
  ⟨⟨rfl, rfl, rfl⟩, fun _ => rfl, fun _ => rfl,
    fun _ _ => ⟨rfl, rfl⟩, fun _ _ => ⟨rfl, rfl⟩⟩

/-- C4: dependency change detection for `pushFrame`.  A first-ever
registration with a dependency array yields an enabled `"once"` entry and
records the array; re-registration yields
`enabled = !same || firstTime` — in particular `[1,2]` after `[1,2]` is
disabled and `[1,3]` after `[1,2]` is enabled — and records the new array
unconditionally, even when disabled; an omitted array yields an always
enabled `"loop"` entry with no dependency bookkeeping. -/
theorem frame_deps_change_detection :
    (∀ (ctx : Ctx) (r : Renderer) (key : String) (cb : Nat) (d : List Nat),
      mapGet ctx.frameDeps key = none →
        (execPushFrame ctx r key cb (some d)).1
            = ⟨true, cb, true, FrameKind.once⟩
        ∧ mapGet (execPushFrame ctx r key cb (some d)).2.1.frameDeps key
            = some d
        ∧ mapGet (execPushFrame ctx r key cb (some d)).2.2 key
            = some (execPushFrame ctx r key cb (some d)).1)
    ∧ (∀ (ctx : Ctx) (r : Renderer) (key : String) (cb : Nat)
        (d last : List Nat),
      mapGet ctx.frameDeps key = some last →
        (execPushFrame ctx r key cb (some d)).1
            = ⟨true, cb, !isSameDependencies (some d) (some last),
                FrameKind.once⟩
        ∧ mapGet (execPushFrame ctx r key cb (some d)).2.1.frameDeps key
            = some d)
    ∧ (∀ (ctx : Ctx) (r : Renderer) (key : String) (cb : Nat),
      mapGet ctx.frameDeps key = some [1, 2] →
        (execPushFrame ctx r key cb (some [1, 2])).1.enabled = false
        ∧ (execPushFrame ctx r key cb (some [1, 3])).1.enabled = true)
    ∧ (∀ (ctx : Ctx) (r : Renderer) (key : String) (cb : Nat),
        (execPushFrame ctx r key cb none).1
            = ⟨true, cb, true, FrameKind.loop⟩
        ∧ (execPushFrame ctx r key cb none).2.1 = ctx) := by
  refine ⟨?_, ?_, ?_, ?_⟩
  · intro ctx r key cb d h
    refine ⟨?_, ?_, ?_⟩
    · simp [execPushFrame, h]
    · simp [execPushFrame, mapGet_mapSet_self]
    · simp [execPushFrame, mapGet_mapSet_self]
  · intro ctx r key cb d last h
    refine ⟨?_, ?_⟩
    · simp [execPushFrame, h]
    · simp [execPushFrame, mapGet_mapSet_self]
  · intro ctx r key cb h
    constructor
    · simp [execPushFrame, h]
      decide
    · simp [execPushFrame, h]
      decide
  · intro ctx r key cb
    exact ⟨rfl, rfl⟩

/-- Witness for C4: concrete registrations at call site `"k"` — first
with `[1,2]` (enabled, recorded), then `[1,3]` after `[1,2]` (enabled),
`[1,2]` after `[1,2]` (disabled), and one without dependencies (loop). -/
theorem frame_deps_change_detection_witness :
    ((execPushFrame Ctx.empty [] "k" 0 (some [1, 2])).1
        = ⟨true, 0, true, FrameKind.once⟩
      ∧ mapGet (execPushFrame Ctx.empty [] "k" 0 (some [1, 2])).2.1.frameDeps
          "k" = some [1, 2]
      ∧ mapGet (execPushFrame Ctx.empty [] "k" 0 (some [1, 2])).2.2 "k"
          = some (execPushFrame Ctx.empty [] "k" 0 (some [1, 2])).1)
    ∧ ((execPushFrame ⟨[], [], [], [("k", [1, 2])], []⟩ [] "k" 0
          (some [1, 2])).1.enabled = false
      ∧ (execPushFrame ⟨[], [], [], [("k", [1, 2])], []⟩ [] "k" 0
          (some [1, 3])).1.enabled = true)
    ∧ ((execPushFrame Ctx.empty [] "k" 0 none).1
          = ⟨true, 0, true, FrameKind.loop⟩
      ∧ (execPushFrame Ctx.empty [] "k" 0 none).2.1 = Ctx.empty) :=
  ⟨frame_deps_change_detection.1 Ctx.empty [] "k" 0 [1, 2] (by decide),
    frame_deps_change_detection.2.2.1 ⟨[], [], [], [("k", [1, 2])], []⟩ []
      "k" 0 (by decide),
    frame_deps_change_detection.2.2.2 Ctx.empty [] "k" 0⟩

/-- C3: counterexample to "then discards those caches".  After creating
one buffer in a fresh context, `dispose` destroys it but the context's
buffer cache still holds the entry afterwards — the source's `dispose`
contains no statement clearing or deleting the local maps. -/
theorem dispose_discards_caches_cex :
    (disposeCtx (execLocal Ctx.empty 7 LKind.buffer
        [("size", FieldVal.num 256)] 0).2.1).1 = [⟨0⟩]
    ∧ (disposeCtx (execLocal Ctx.empty 7 LKind.buffer
        [("size", FieldVal.num 256)] 0).2.1).2.buffers ≠ [] := by decide

/-- C3 (amended): `dispose(context)` destroys exactly the buffers and
textures held in that context's local caches, each exactly once per call,
and leaves those caches in place; it does not destroy locally held bind
groups, does not touch resources in any sibling context, and does not
touch the global per-device caches. -/
theorem dispose_destroys_each_exactly_once (ctx : Ctx)
    (hnodup :
      ((ctx.textures.map Prod.snd) ++ (ctx.buffers.map Prod.snd)).Nodup) :
    (disposeCtx ctx).1 = ctx.textures.map Prod.snd ++ ctx.buffers.map Prod.snd
    ∧ (∀ r ∈ ctx.textures.map Prod.snd, (disposeCtx ctx).1.count r = 1)
    ∧ (∀ r ∈ ctx.buffers.map Prod.snd, (disposeCtx ctx).1.count r = 1)
    ∧ (∀ r : Res, r ∉ ctx.textures.map Prod.snd ++ ctx.buffers.map Prod.snd →
        (disposeCtx ctx).1.count r = 0)
    ∧ (disposeCtx ctx).2 = ctx
    ∧ (∀ (w : World) (i : Nat), (disposeWorld w i).2 = w) := by
  refine ⟨rfl, ?_, ?_, ?_, rfl, fun w i => rfl⟩
  · intro r hr
    exact List.count_eq_one_of_mem hnodup (List.mem_append_left _ hr)
  · intro r hr
    exact List.count_eq_one_of_mem hnodup (List.mem_append_right _ hr)
  · intro r hr
    exact List.count_eq_zero_of_not_mem hr

/-- Witness for C3 (amended): a context holding one texture, one buffer
and one bind group — the texture is destroyed exactly once, the bind
group not at all. -/
theorem dispose_destroys_each_exactly_once_witness :
    (disposeCtx ⟨[([], ⟨1⟩)], [([], ⟨0⟩)], [([], ⟨2⟩)], [], []⟩).1.count
        ⟨0⟩ = 1
    ∧ (disposeCtx ⟨[([], ⟨1⟩)], [([], ⟨0⟩)], [([], ⟨2⟩)], [], []⟩).1.count
        ⟨2⟩ = 0 := by
  have h := dispose_destroys_each_exactly_once
    ⟨[([], ⟨1⟩)], [([], ⟨0⟩)], [([], ⟨2⟩)], [], []⟩ (by decide)
  exact ⟨h.2.1 ⟨0⟩ (by decide), h.2.2.2.1 ⟨2⟩ (by decide)⟩

/-- C10: `dispose` calls destroy on a locally cached buffer or texture
but does not remove the entry from the context's map; consequently a
subsequent `exec` on the same context with a structurally equal
descriptor returns the already-destroyed handle from the cache without
invoking the device's creation function, and a second `dispose` calls
destroy on the handle again. -/
theorem dispose_keeps_entries_destroyed_handles (ctx : Ctx) (devId : Nat)
    (desc : Desc) (r : Res) (k : LKind) (n : Nat)
    (hk : k = LKind.buffer ∨ k = LKind.texture)
    (h : mapGet (ctx.cacheOf k) (localResourceHash desc devId).1 = some r) :
    (disposeCtx ctx).2 = ctx
    ∧ r ∈ (disposeCtx ctx).1
    ∧ execLocal (disposeCtx ctx).2 devId k desc n = (r, ctx, n, false)
    ∧ r ∈ (disposeCtx (disposeCtx ctx).2).1 := by
  have hmem : r ∈ (disposeCtx ctx).1 := by
    rcases hk with rfl | rfl
    · exact List.mem_append_right _ (mapGet_mem_values _ _ _ h)
    · exact List.mem_append_left _ (mapGet_mem_values _ _ _ h)
  refine ⟨rfl, hmem, ?_, hmem⟩
  simp [execLocal, disposeCtx, h]

/-- Witness for C10: create a buffer, dispose, request it again — the
destroyed handle comes back from the cache with no new creation. -/
theorem dispose_keeps_entries_destroyed_handles_witness :
    Res.mk 0 ∈ (disposeCtx (execLocal Ctx.empty 7 LKind.buffer
        [("size", FieldVal.num 256)] 0).2.1).1
    ∧ execLocal (disposeCtx (execLocal Ctx.empty 7 LKind.buffer
          [("size", FieldVal.num 256)] 0).2.1).2 7 LKind.buffer
          [("size", FieldVal.num 256)] 1
        = (⟨0⟩, (execLocal Ctx.empty 7 LKind.buffer
            [("size", FieldVal.num 256)] 0).2.1, 1, false) := by
  have h := dispose_keeps_entries_destroyed_handles
    (execLocal Ctx.empty 7 LKind.buffer [("size", FieldVal.num 256)] 0).2.1
    7 [("size", FieldVal.num 256)] ⟨0⟩ LKind.buffer 1 (Or.inl rfl) (by decide)
  exact ⟨h.2.1, h.2.2.1⟩

/-- C1: global memoization.  Starting from a state whose (device, kind)
cache has no entry for the descriptor's fingerprint, two `exec` calls
with structurally equal descriptors return the identical resource
instance, the device's creation function runs exactly once across both
calls (the counter rises by one on the first call and the second call
leaves the state untouched), and in general a cache hit returns the
cached resource unchanged with no state change at all. -/
theorem global_memoization (w : GWorld) (dev : Nat) (k : GKind) (desc : Desc)
    (hmiss : ∀ c, mapGet w.registry (dev, k) = some c →
        mapGet c (globalResourceHash desc) = none) :
    (execGlobal w dev k desc false).1 = .ok ⟨w.nextId⟩
    ∧ execGlobal (execGlobal w dev k desc false).2 dev k desc false
        = (.ok ⟨w.nextId⟩, (execGlobal w dev k desc false).2)
    ∧ (execGlobal w dev k desc false).2.createCalls = w.createCalls + 1
    ∧ (∀ (w' : GWorld) (c : Cache) (r' : Res),
        mapGet w'.registry (dev, k) = some c →
        mapGet c (globalResourceHash desc) = some r' →
        execGlobal w' dev k desc false = (.ok r', w')) := by
  have hhit : ∀ (w' : GWorld) (c : Cache) (r' : Res),
      mapGet w'.registry (dev, k) = some c →
      mapGet c (globalResourceHash desc) = some r' →
      execGlobal w' dev k desc false = (.ok r', w') := by
    intro w' c r' hc hr
    simp [execGlobal, hc, hr]
  refine ⟨?_, ?_, ?_, hhit⟩ <;>
    rcases hre : mapGet w.registry (dev, k) with _ | c
  · simp [execGlobal, hre, mapGet]
  · simp [execGlobal, hre, hmiss c hre]
  · have h1 : execGlobal w dev k desc false
        = (.ok ⟨w.nextId⟩,
            { w with
                registry := mapSet (mapSet w.registry (dev, k) []) (dev, k)
                  (mapSet [] (globalResourceHash desc) ⟨w.nextId⟩)
                subs := (dev, k) :: w.subs
                nextId := w.nextId + 1
                createCalls := w.createCalls + 1 }) := by
      simp [execGlobal, hre, mapGet]
    rw [h1]
    exact hhit _ _ _ (mapGet_mapSet_self _ _ _) (mapGet_mapSet_self _ _ _)
  · have h1 : execGlobal w dev k desc false
        = (.ok ⟨w.nextId⟩,
            { w with
                registry := mapSet w.registry (dev, k)
                  (mapSet c (globalResourceHash desc) ⟨w.nextId⟩)
                nextId := w.nextId + 1
                createCalls := w.createCalls + 1 }) := by
      simp [execGlobal, hre, hmiss c hre]
    rw [h1]
    exact hhit _ _ _ (mapGet_mapSet_self _ _ _) (mapGet_mapSet_self _ _ _)
  · simp [execGlobal, hre, mapGet]
  · simp [execGlobal, hre, hmiss c hre]

/-- Witness for C1: two shader-module requests for the same descriptor on
a fresh device create once and hand back the same instance. -/
theorem global_memoization_witness :
    (execGlobal GWorld.empty 0 GKind.shader [("code", FieldVal.str "x")]
        false).1 = .ok ⟨0⟩
    ∧ execGlobal (execGlobal GWorld.empty 0 GKind.shader
          [("code", FieldVal.str "x")] false).2 0 GKind.shader
          [("code", FieldVal.str "x")] false
        = (.ok ⟨0⟩, (execGlobal GWorld.empty 0 GKind.shader
            [("code", FieldVal.str "x")] false).2)
    ∧ (execGlobal GWorld.empty 0 GKind.shader [("code", FieldVal.str "x")]
        false).2.createCalls = GWorld.empty.createCalls + 1 := by
  have h := global_memoization GWorld.empty 0 GKind.shader
    [("code", FieldVal.str "x")]
    (fun c hc => by simp [GWorld.empty, mapGet] at hc)
  exact ⟨h.1, h.2.1, h.2.2.1⟩

/-- C9: creation-failure atomicity.  On a global cache miss, if the
device's creation function throws, the failure propagates to the caller,
the creation was attempted exactly once (no retry), no fresh identity was
consumed, and the cached entries of every (device, kind) pair are exactly
what they were before the call. -/
theorem creation_failure_atomicity (w : GWorld) (dev : Nat) (k : GKind)
    (desc : Desc)
    (hmiss : ∀ c, mapGet w.registry (dev, k) = some c →
        mapGet c (globalResourceHash desc) = none) :
    (execGlobal w dev k desc true).1 = .error ()
    ∧ (∀ (dev' : Nat) (k' : GKind),
        cacheEntries (execGlobal w dev k desc true).2 dev' k'
          = cacheEntries w dev' k')
    ∧ (execGlobal w dev k desc true).2.createCalls = w.createCalls + 1
    ∧ (execGlobal w dev k desc true).2.nextId = w.nextId := by
  rcases hre : mapGet w.registry (dev, k) with _ | c
  · have h1 : execGlobal w dev k desc true
        = (.error (),
            { w with
                registry := mapSet w.registry (dev, k) []
                subs := (dev, k) :: w.subs
                createCalls := w.createCalls + 1 }) := by
      simp [execGlobal, hre, mapGet]
    refine ⟨by rw [h1], ?_, by rw [h1], by rw [h1]⟩
    intro dev' k'
    by_cases hkey : (dev', k') = (dev, k)
    · rw [h1]
      simp only [cacheEntries, hkey, hre, mapGet_mapSet_self]
      rfl
    · rw [h1]
      simp only [cacheEntries, mapGet_mapSet_ne _ _ _ _ hkey]
  · have h1 : execGlobal w dev k desc true
        = (.error (), { w with createCalls := w.createCalls + 1 }) := by
      simp [execGlobal, hre, hmiss c hre]
    refine ⟨by rw [h1], ?_, by rw [h1], by rw [h1]⟩
    intro dev' k'
    rw [h1]
    rfl

/-- Witness for C9: a failing shader-module creation on a fresh device
surfaces the error and caches nothing. -/
theorem creation_failure_atomicity_witness :
    (execGlobal GWorld.empty 0 GKind.shader [("code", FieldVal.str "x")]
        true).1 = .error ()
    ∧ cacheEntries (execGlobal GWorld.empty 0 GKind.shader
        [("code", FieldVal.str "x")] true).2 0 GKind.shader
      = cacheEntries GWorld.empty 0 GKind.shader
    ∧ (execGlobal GWorld.empty 0 GKind.shader [("code", FieldVal.str "x")]
        true).2.createCalls = GWorld.empty.createCalls + 1 := by
  have h := creation_failure_atomicity GWorld.empty 0 GKind.shader
    [("code", FieldVal.str "x")]
    (fun c hc => by simp [GWorld.empty, mapGet] at hc)
  exact ⟨h.1, h.2.1 0 GKind.shader, h.2.2.1⟩

/-- C6: local memoization scoping.  A descriptor missing from a context's
cache is created once with a fresh instance; the same descriptor in the
same context afterwards hits the cache (same instance, no creation); the
same structurally equal descriptor in a fresh context (empty cache, any
later fresh-id supply) yields a different instance via a new creation;
and the local fingerprint incorporates the owning device's identity
(distinct devices give distinct fingerprints). -/
theorem local_memoization_scoping (ctx : Ctx) (devId : Nat) (k : LKind)
    (desc : Desc) (n : Nat)
    (hmiss : mapGet (ctx.cacheOf k) (localResourceHash desc devId).1 = none) :
    (execLocal ctx devId k desc n).1 = ⟨n⟩
    ∧ (execLocal ctx devId k desc n).2.2 = (n + 1, true)
    ∧ execLocal (execLocal ctx devId k desc n).2.1 devId k desc (n + 1)
        = (⟨n⟩, (execLocal ctx devId k desc n).2.1, n + 1, false)
    ∧ (∀ (ctx2 : Ctx) (n2 : Nat), ctx2.cacheOf k = [] → n < n2 →
        (execLocal ctx2 devId k desc n2).1 ≠ ⟨n⟩
        ∧ (execLocal ctx2 devId k desc n2).2.2.2 = true)
    ∧ (∀ d1 d2 : Nat, d1 ≠ d2 →
        (localResourceHash desc d1).1 ≠ (localResourceHash desc d2).1) := by
  refine ⟨?_, ?_, ?_, ?_, ?_⟩
  · simp [execLocal, hmiss]
  · simp [execLocal, hmiss]
  · have h1 : (execLocal ctx devId k desc n).2.1
        = ctx.setCache k (mapSet (ctx.cacheOf k)
            (localResourceHash desc devId).1 ⟨n⟩) := by
      simp [execLocal, hmiss]
    rw [h1]
    simp [execLocal, cacheOf_setCache, mapGet_mapSet_self]
  · intro ctx2 n2 hc2 hlt
    have h2 : execLocal ctx2 devId k desc n2
        = (⟨n2⟩, ctx2.setCache k (mapSet (ctx2.cacheOf k)
            (localResourceHash desc devId).1 ⟨n2⟩), n2 + 1, true) := by
      simp [execLocal, hc2, mapGet]
    rw [h2]
    refine ⟨?_, rfl⟩
    simp only [ne_eq, Res.mk.injEq]
    omega
  · intro d1 d2 hne heq
    have h3 := localResourceHash_owningDevice desc d1
    rw [heq, localResourceHash_owningDevice desc d2] at h3
    simp only [Option.some.injEq, HashedVal.num.injEq] at h3
    exact hne h3.symm

/-- Witness for C6: a 256-byte buffer requested twice in one context is
created once; a fresh context gets a different instance. -/
theorem local_memoization_scoping_witness :
    (execLocal Ctx.empty 7 LKind.buffer [("size", FieldVal.num 256)] 0).1
        = ⟨0⟩
    ∧ execLocal (execLocal Ctx.empty 7 LKind.buffer
          [("size", FieldVal.num 256)] 0).2.1 7 LKind.buffer
          [("size", FieldVal.num 256)] 1
        = (⟨0⟩, (execLocal Ctx.empty 7 LKind.buffer
            [("size", FieldVal.num 256)] 0).2.1, 1, false)
    ∧ (execLocal Ctx.empty 7 LKind.buffer [("size", FieldVal.num 256)] 1).1
        ≠ ⟨0⟩ := by
  have h := local_memoization_scoping Ctx.empty 7 LKind.buffer
    [("size", FieldVal.num 256)] 0 (by decide)
  exact ⟨h.1, h.2.2.1, (h.2.2.2.1 Ctx.empty 1 rfl (by omega)).1⟩

/-- C2: device-loss eviction.  In a state where device `dev` has exactly
one cache (kind `k`, contents `c`) and its lost subscription pending,
firing the one-shot lost signal logs that `c.length` entries were
cleared, removes the cache from the registry so that every global cache
keyed by `dev` is empty (absent), consumes the subscription, and a
subsequent request against `dev` creates a brand-new resource — distinct
from every previously cached instance — inside a fresh one-entry
cache. -/
theorem device_loss_eviction (w : GWorld) (dev : Nat) (k : GKind) (c : Cache)
    (desc : Desc)
    (hc : mapGet w.registry (dev, k) = some c)
    (hsub : w.subs = [(dev, k)])
    (hothers : ∀ k' : GKind, k' ≠ k → mapGet w.registry (dev, k') = none)
    (hkeys : (w.registry.map Prod.fst).Nodup)
    (hfresh : ∀ r ∈ c.map Prod.snd, r.instanceId < w.nextId) :
    (fireLost w dev).clearedLog = w.clearedLog ++ [c.length]
    ∧ (∀ k' : GKind, mapGet (fireLost w dev).registry (dev, k') = none)
    ∧ (fireLost w dev).subs = []
    ∧ (execGlobal (fireLost w dev) dev k desc false).1 = .ok ⟨w.nextId⟩
    ∧ (∀ r' ∈ c.map Prod.snd, Res.mk w.nextId ≠ r')
    ∧ mapGet (execGlobal (fireLost w dev) dev k desc false).2.registry
        (dev, k) = some [(globalResourceHash desc, ⟨w.nextId⟩)] := by
  have hfl : fireLost w dev
      = { w with
            registry := mapDelete w.registry (dev, k)
            subs := []
            clearedLog := w.clearedLog ++ [c.length] } := by
    simp [fireLost, hsub, runLostHandlers, hc]
  have hgone : ∀ k' : GKind,
      mapGet (fireLost w dev).registry (dev, k') = none := by
    intro k'
    rw [hfl]
    by_cases hk' : k' = k
    · subst hk'
      exact mapGet_mapDelete_self _ _ hkeys
    · rw [mapGet_mapDelete_ne _ _ _ (by simp [hk'])]
      exact hothers k' hk'
  have hexec : execGlobal (fireLost w dev) dev k desc false
      = (.ok ⟨w.nextId⟩,
          { fireLost w dev with
              registry := mapSet (mapSet (fireLost w dev).registry (dev, k) [])
                (dev, k) (mapSet [] (globalResourceHash desc) ⟨w.nextId⟩)
              subs := (dev, k) :: (fireLost w dev).subs
              nextId := (fireLost w dev).nextId + 1
              createCalls := (fireLost w dev).createCalls + 1 }) := by
    have hid : (fireLost w dev).nextId = w.nextId := by rw [hfl]
    rw [← hid]
    simp [execGlobal, hgone k, mapGet]
  refine ⟨by rw [hfl], hgone, by rw [hfl], ?_, ?_, ?_⟩
  · rw [hexec]
  · intro r' hr' hEq
    have hlt := hfresh r' hr'
    rw [← hEq] at hlt
    simp at hlt
  · rw [hexec]
    simp [mapGet_mapSet_self, mapSet]

/-- Witness for C2: one shader module cached on device 5, then the lost
signal fires — one entry is reported cleared, the cache is gone, and a
repeat request creates a new instance in a fresh cache. -/
theorem device_loss_eviction_witness :
    (fireLost (execGlobal GWorld.empty 5 GKind.shader
        [("code", FieldVal.str "x")] false).2 5).clearedLog = [1]
    ∧ mapGet (fireLost (execGlobal GWorld.empty 5 GKind.shader
        [("code", FieldVal.str "x")] false).2 5).registry
        (5, GKind.shader) = none
    ∧ (execGlobal (fireLost (execGlobal GWorld.empty 5 GKind.shader
        [("code", FieldVal.str "x")] false).2 5) 5 GKind.shader
        [("code", FieldVal.str "x")] false).1 = .ok ⟨1⟩ := by
  have h := device_loss_eviction
    (execGlobal GWorld.empty 5 GKind.shader [("code", FieldVal.str "x")]
      false).2 5 GKind.shader
    [(globalResourceHash [("code", FieldVal.str "x")], ⟨0⟩)]
    [("code", FieldVal.str "x")] (by decide) (by decide) (by decide)
    (by decide) (by decide)
  exact ⟨h.1, h.2.1 GKind.shader, h.2.2.2.1⟩
